import Mathlib

/-!
Verification of the Archon voice conversation engine
(src/archon/voice/*.py) against its natural-language specification.

The embedding translates the relevant Python code into Lean:

* activation.py      — activation events, the wake-word monitor state machine,
                       activator start-up failure behaviour, attribute surface
                       of WakeWordActivator;
* audio_processing.py — the stateful high-pass biquad, the noise gate, and the
                       AGC gain update, over exact rationals;
* audio_io.py        — the speaker playback queue and its clear() operation;
* gemini_live_client.py — send_audio gating on the interrupt flag and the
                       receive() part stream;
* voice_session.py   — the barge-in detection block, the activation-event
                       dispatch, and the receive-loop body of VoiceSession.

Audio samples and RMS/score values are modelled as rationals (the Python code
uses floats only for ordering comparisons and linear arithmetic in the
properties below, so the exact-arithmetic model is faithful to the control
flow).
-/

namespace Archon

/-- A chunk of LINEAR16 mono PCM audio, as the list of its int16 sample
values (the Python code passes chunks around as `bytes`; two bytes form one
sample). -/
abbrev PCMChunk := List ℤ

/-- activation.py `ActivationEvent`. -/
inductive ActivationEvent
  | listeningStart
  | listeningEnd
  | interrupted
  | exit
deriving DecidableEq, Repr

/-- visualizer.py `VisualizerState`. -/
inductive VisualizerState
  | idle
  | listening
  | thinking
  | speaking
deriving DecidableEq, Repr

/-- A Python exception raised by the modelled code paths. -/
inductive PyException
  | attributeError (attr : String)
  | importError (msg : String)
deriving DecidableEq, Repr

/-! ## Wake-word activator (activation.py, WakeWordActivator) -/

/-- WakeWordActivator.SILENCE_FRAMES_TO_END (15 × 100 ms = 1.5 s). -/
def SILENCE_FRAMES_TO_END : Nat := 15

/-- WakeWordActivator.ENERGY_THRESHOLD (RMS threshold for silence detection
during an active turn). -/
def ENERGY_THRESHOLD : ℚ := 2/100

/-- Default value of ARCHON_WAKE_THRESHOLD in WakeWordActivator.__init__. -/
def DEFAULT_WAKE_THRESHOLD : ℚ := 1/2

/-- The mutable wake-word state of WakeWordActivator:
`_listening_for_wake`, `_active_turn`, `_silence_streak`. -/
structure WakeState where
  listeningForWake : Bool
  activeTurn : Bool
  silenceStreak : Nat
deriving DecidableEq, Repr

/-- The initial wake-word state set in WakeWordActivator.__init__. -/
def WakeState.init : WakeState :=
  { listeningForWake := true, activeTurn := false, silenceStreak := 0 }

/-- One buffer of monitor-loop input: the black-box scorer's confidence for
the buffer (`prediction.get(self._model_key, 0.0)`), and the buffer's RMS
(computed in the active-turn branch). -/
structure WakeInput where
  score : ℚ
  rms : ℚ
deriving DecidableEq, Repr

/-- The observable outcome of one monitor-loop iteration: the new state, the
events emitted into the activator's queue, and whether the scorer's internal
memory was reset (`self._oww_model.reset()`). -/
structure WakeStepResult where
  state : WakeState
  events : List ActivationEvent
  scorerReset : Bool
deriving DecidableEq, Repr

/-- One iteration of WakeWordActivator._monitor_loop on one audio chunk:
while `_listening_for_wake`, a score at or above the threshold transitions to
the active turn, zeroes the silence streak, resets the scorer and emits
LISTENING_START; otherwise, during an active turn, a quiet buffer extends the
silence streak and a streak reaching SILENCE_FRAMES_TO_END ends the turn and
emits LISTENING_END, while a loud buffer resets the streak to 0. -/
def wakeMonitorStep (threshold : ℚ) (s : WakeState) (inp : WakeInput) :
    WakeStepResult :=
  if s.listeningForWake then
    if inp.score ≥ threshold then
      { state := { listeningForWake := false, activeTurn := true, silenceStreak := 0 },
        events := [ActivationEvent.listeningStart],
        scorerReset := true }
    else
      { state := s, events := [], scorerReset := false }
  else
    if inp.rms < ENERGY_THRESHOLD then
      if s.silenceStreak + 1 ≥ SILENCE_FRAMES_TO_END then
        { state := { listeningForWake := true, activeTurn := false, silenceStreak := 0 },
          events := [ActivationEvent.listeningEnd],
          scorerReset := false }
      else
        { state := { s with silenceStreak := s.silenceStreak + 1 },
          events := [], scorerReset := false }
    else
      { state := { s with silenceStreak := 0 }, events := [], scorerReset := false }

/-! ## WakeWordActivator attribute surface and the orchestrator's feed call -/

/-- The attribute names bound on a WakeWordActivator instance: the methods of
_BaseActivator and WakeWordActivator plus the instance attributes assigned in
their __init__ methods and the class-level constants (activation.py). -/
def wakeWordActivatorAttrs : List String :=
  ["__init__", "start", "stop", "next_event", "push_audio",
   "_emit", "_load_model", "_monitor_loop",
   "SILENCE_FRAMES_TO_END", "ENERGY_THRESHOLD",
   "_events", "_listening_for_wake", "_active_turn", "_silence_streak",
   "_monitor_task", "_audio_queue", "_oww_model", "_model_key",
   "_custom_model_path", "_threshold"]

/-- The wake-word feed statement of VoiceSession._mic_forward_loop
(voice_session.py line 210): `activator.push_rms(rms)`.  Modelled as Python
attribute resolution against the activator's attribute names: the call raises
AttributeError when no such attribute exists.  Note that only the scalar RMS
value is passed, not the PCM chunk. -/
def micForwardWakeFeed (_rms : ℚ) : Except PyException Unit :=
  if wakeWordActivatorAttrs.contains "push_rms" then Except.ok ()
  else Except.error (PyException.attributeError "push_rms")

/-! ## Activator start-up (activation.py) -/

/-- session_config.py `VoiceActivation` modes. -/
inductive VoiceActivation
  | vad
  | ptt
  | wakeWord
deriving DecidableEq, Repr

/-- Availability of the optional dependencies the activation modes need:
pynput (`_kb is not None` in PTTActivator.start) and openwakeword (the import
in WakeWordActivator._load_model succeeds). -/
structure ActivationDeps where
  pynputAvailable : Bool
  openwakewordAvailable : Bool
deriving DecidableEq, Repr

/-- The start() call of the activator chosen for a mode: VADActivator.start
emits one LISTENING_START and succeeds; PTTActivator.start raises ImportError
when pynput is missing; WakeWordActivator.start calls _load_model, which
raises ImportError when openwakeword is missing.  The returned list is the
events emitted into the queue by start() itself. -/
def activatorStart (mode : VoiceActivation) (deps : ActivationDeps) :
    Except PyException (List ActivationEvent) :=
  match mode with
  | VoiceActivation.vad => Except.ok [ActivationEvent.listeningStart]
  | VoiceActivation.ptt =>
    if deps.pynputAvailable then Except.ok []
    else Except.error (PyException.importError
      "pynput is required for Push-to-Talk mode")
  | VoiceActivation.wakeWord =>
    if deps.openwakewordAvailable then Except.ok []
    else Except.error (PyException.importError
      "openwakeword is required for Wake-Word mode")

/-- Whether the resource required by the chosen mode is available (the VAD
mode requires none; PTT requires the key listener; WakeWord requires the
scorer model package). -/
def requiredResourceAvailable (mode : VoiceActivation) (deps : ActivationDeps) :
    Bool :=
  match mode with
  | VoiceActivation.vad => true
  | VoiceActivation.ptt => deps.pynputAvailable
  | VoiceActivation.wakeWord => deps.openwakewordAvailable

/-- The spec's error taxonomy (spec §7). -/
inductive ErrorCategory
  | resourceUnavailable
  | deviceUnavailable
  | protocolError
  | configurationError
deriving DecidableEq, Repr

/-- Modelled from the spec: the §7 taxonomy classifies an activation
dependency ImportError (no listener / no scorer) as ResourceUnavailable.
Other exceptions are not classified by this map. -/
def specErrorCategory : PyException → Option ErrorCategory
  | PyException.importError _ => some ErrorCategory.resourceUnavailable
  | _ => none

/-- VADActivator.signal_playback_interrupted: appends INTERRUPTED to the
activator's event queue. -/
def signalPlaybackInterrupted (events : List ActivationEvent) :
    List ActivationEvent :=
  events ++ [ActivationEvent.interrupted]

/-! ## High-pass filter (audio_processing.py, _apply_highpass) -/

/-- Biquad coefficients (b0, b1, b2, a1, a2) normalised by a0, as returned by
AudioPreprocessor._compute_hpf_coeffs.  The continuity property holds for any
coefficient values, so they are a parameter of the embedding (the source
computes them from the cutoff and sample rate using cos/sin). -/
structure HPFCoeffs where
  b0 : ℚ
  b1 : ℚ
  b2 : ℚ
  a1 : ℚ
  a2 : ℚ

/-- The two Direct-Form-II-transposed delay registers
(`_hpf_z1`, `_hpf_z2`). -/
structure HPFState where
  z1 : ℚ
  z2 : ℚ
deriving DecidableEq, Repr

/-- The loop body of _apply_highpass for one sample: the output sample and
the updated delay registers. -/
def hpfStep (c : HPFCoeffs) (s : HPFState) (x : ℚ) : ℚ × HPFState :=
  let y := c.b0 * x + s.z1
  (y, { z1 := c.b1 * x - c.a1 * y + s.z2, z2 := c.b2 * x - c.a2 * y })

/-- AudioPreprocessor._apply_highpass: the per-sample biquad loop over one
buffer, returning the output buffer and the final delay-register state. -/
def applyHighpass (c : HPFCoeffs) : List ℚ → HPFState → List ℚ × HPFState
  | [], s => ([], s)
  | x :: rest, s =>
    ((hpfStep c s x).1 :: (applyHighpass c rest (hpfStep c s x).2).1,
      (applyHighpass c rest (hpfStep c s x).2).2)

/-- Sequential application of _apply_highpass to a list of sub-buffers, with
the delay registers carried across the calls exactly as the preprocessor
instance carries `_hpf_z1`/`_hpf_z2` between process() calls. -/
def applyHighpassChunks (c : HPFCoeffs) :
    List (List ℚ) → HPFState → List ℚ × HPFState
  | [], s => ([], s)
  | buf :: bufs, s =>
    ((applyHighpass c buf s).1 ++
        (applyHighpassChunks c bufs (applyHighpass c buf s).2).1,
      (applyHighpassChunks c bufs (applyHighpass c buf s).2).2)

/-! ## Noise gate (audio_processing.py, _apply_noise_gate) -/

/-- AudioPreprocessor.NOISE_GATE_THRESHOLD default (0.008 of full scale). -/
def NOISE_GATE_THRESHOLD : ℚ := 8/1000

/-- AudioPreprocessor.NOISE_GATE_ATTENUATION (0.01, −40 dB, soft gate). -/
def NOISE_GATE_ATTENUATION : ℚ := 1/100

/-- The mean of the squared samples of a buffer (`np.mean(audio**2)`). -/
def meanSq (xs : List ℚ) : ℚ :=
  (xs.map (fun x => x ^ 2)).sum / (xs.length : ℚ)

/-- AudioPreprocessor._apply_noise_gate: the source compares
`rms < NOISE_GATE_THRESHOLD` where rms is the square root of `meanSq`; both
sides are nonnegative, so the comparison is expressed here on squares.  A
below-threshold buffer is multiplied throughout by the attenuation factor
(never hard-zeroed); any other buffer passes through unchanged. -/
def applyNoiseGate (audio : List ℚ) : List ℚ :=
  if meanSq audio < NOISE_GATE_THRESHOLD ^ 2 then
    audio.map (fun x => x * NOISE_GATE_ATTENUATION)
  else audio

/-! ## AGC (audio_processing.py, _apply_agc) -/

/-- AudioPreprocessor.AGC_TARGET_RMS default (0.15). -/
def AGC_TARGET_RMS : ℚ := 15/100

/-- AudioPreprocessor.AGC_MAX_GAIN (10.0). -/
def AGC_MAX_GAIN : ℚ := 10

/-- AudioPreprocessor.AGC_SMOOTHING (0.95, EMA coefficient). -/
def AGC_SMOOTHING : ℚ := 95/100

/-- The initial `_agc_gain` set in AudioPreprocessor.__init__. -/
def AGC_INITIAL_GAIN : ℚ := 1

/-- The RMS floor below which _apply_agc leaves the gain untouched
(the `rms > 1e-6` guard). -/
def AGC_RMS_FLOOR : ℚ := 1/1000000

/-- The desired instantaneous gain computed in _apply_agc: target RMS over
the buffer's RMS, capped at AGC_MAX_GAIN. -/
def agcDesiredGain (rms : ℚ) : ℚ :=
  min (AGC_TARGET_RMS / rms) AGC_MAX_GAIN

/-- The `_agc_gain` update performed by one _apply_agc call, as a function of
the buffer's RMS (the square root of its mean square, passed here as a
parameter): above the floor, the gain becomes the EMA of the previous gain
and the desired gain; otherwise it is left unchanged. -/
def agcUpdateGain (gain rms : ℚ) : ℚ :=
  if rms > AGC_RMS_FLOOR then
    AGC_SMOOTHING * gain + (1 - AGC_SMOOTHING) * agcDesiredGain rms
  else gain

/-! ## Speaker playback queue (audio_io.py, SpeakerPlayback) -/

/-- SpeakerPlayback.clear: pop queued-but-unplayed chunks with get_nowait
until the queue is empty. -/
def SpeakerPlayback.clear : List PCMChunk → List PCMChunk
  | [] => []
  | _ :: rest => SpeakerPlayback.clear rest

/-! ## Session protocol client (gemini_live_client.py, LiveSession) -/

/-- A realtime input frame sent to the remote session. -/
inductive ClientInput
  | realtimeAudio (pcm : PCMChunk)
  | audioStreamEnd
deriving DecidableEq, Repr

/-- LiveSession.send_audio, modelled by its transmissions: the list of
realtime input frames the call sends to the remote session, given the state
of the `_interrupted` flag.  The call is total (it raises nothing): when the
flag is set it returns immediately having sent nothing. -/
def sendAudio (interrupted : Bool) (pcm : PCMChunk) : List ClientInput :=
  if interrupted then [] else [ClientInput.realtimeAudio pcm]

/-- gemini_live_client.py `ResponsePart`. -/
structure ResponsePart where
  audio : Option PCMChunk
  text : Option String
  isFinal : Bool
deriving DecidableEq, Repr

/-- One content part inside a server message (`part.inline_data.data` and
`part.text`). -/
structure ServerPart where
  inlineData : Option PCMChunk
  text : Option String
deriving DecidableEq, Repr

/-- One message from the underlying session's receive stream, with the
fields LiveSession.receive reads: the server interruption signal, the model
turn's parts, and the turn-completion marker. -/
structure ServerMsg where
  interrupted : Bool
  parts : List ServerPart
  turnComplete : Bool
deriving DecidableEq, Repr

/-- The ResponsePart values yielded for one server content part: an audio
part when inline data is present and non-empty, then a text part when the
text is present and non-empty (run through format_for_speech, a parameter
`fmt` of the embedding). -/
def yieldServerPart (fmt : String → String) (p : ServerPart) :
    List ResponsePart :=
  (match p.inlineData with
   | some d => if d ≠ [] then [{ audio := some d, text := none, isFinal := false }] else []
   | none => []) ++
  (match p.text with
   | some t => if t ≠ "" then [{ audio := none, text := some (fmt t), isFinal := false }] else []
   | none => [])

/-- The synthetic final part yielded on server interruption or turn
completion: `ResponsePart(is_final=True)` — no audio, no text. -/
def finalPart : ResponsePart :=
  { audio := none, text := none, isFinal := true }

/-- LiveSession.receive over a finite underlying message stream: the sequence
of ResponsePart values the async generator yields.  A server interruption
signal yields one synthetic final part and returns at once; a turn-completion
marker yields the message's parts followed by the synthetic final part and
returns; otherwise the generator yields the message's parts and continues
with the rest of the stream (and simply ends when the stream is
exhausted). -/
def receive (fmt : String → String) : List ServerMsg → List ResponsePart
  | [] => []
  | m :: rest =>
    if m.interrupted then [finalPart]
    else if m.turnComplete then
      (m.parts.map (yieldServerPart fmt)).flatten ++ [finalPart]
    else
      (m.parts.map (yieldServerPart fmt)).flatten ++ receive fmt rest

/-- The identity formatting function, used to instantiate `fmt` at concrete
inputs (format_for_speech's text transformation is irrelevant to the
properties proved here). -/
def fmtId : String → String := fun s => s

/-! ## Barge-in detection (voice_session.py, _mic_forward_loop) -/

/-- voice_session.py BARGE_IN_RMS_THRESHOLD. -/
def BARGE_IN_RMS_THRESHOLD : ℚ := 4/100

/-- voice_session.py BARGE_IN_FRAMES_REQUIRED (≈0.4 s of sustained speech). -/
def BARGE_IN_FRAMES_REQUIRED : Nat := 4

/-- The state the barge-in detection block of _mic_forward_loop reads and
writes: the visualizer state, the consecutive-loud-frame counter, the session
`_interrupted` flag, and the speaker playback queue.  The queue is part of
the state to record that this block never touches it — SpeakerPlayback.clear
is called only from _receive_loop. -/
structure BargeInState where
  vizState : VisualizerState
  bargeInStreak : Nat
  interrupted : Bool
  playQueue : List PCMChunk
deriving DecidableEq, Repr

/-- The barge-in detection block of VoiceSession._mic_forward_loop for one
mic chunk whose raw RMS is `rms`: while the visualizer is in Speaking, a loud
chunk extends the streak, and a streak reaching BARGE_IN_FRAMES_REQUIRED sets
the session interrupt flag (`sess.interrupt()`), moves the visualizer to
Listening, and zeroes the streak; a quiet chunk zeroes the streak. -/
def bargeInStep (st : BargeInState) (rms : ℚ) : BargeInState :=
  if st.vizState = VisualizerState.speaking then
    if rms > BARGE_IN_RMS_THRESHOLD then
      if st.bargeInStreak + 1 ≥ BARGE_IN_FRAMES_REQUIRED then
        { st with interrupted := true,
                  vizState := VisualizerState.listening,
                  bargeInStreak := 0 }
      else
        { st with bargeInStreak := st.bargeInStreak + 1 }
    else
      { st with bargeInStreak := 0 }
  else st

/-! ## Activation-event dispatch (voice_session.py, _mic_forward_loop) -/

/-- The state read and written by the activation-event handling block of
_mic_forward_loop: the forwarding flag, the session-running flag, the
visualizer state, the session `_interrupted` flag, the speaker playback
queue, and the count of `sess.end_turn()` calls issued. -/
structure MicLoopState where
  forwarding : Bool
  running : Bool
  vizState : VisualizerState
  interrupted : Bool
  playQueue : List PCMChunk
  endTurnsSent : Nat
deriving DecidableEq, Repr

/-- The activation-event dispatch of _mic_forward_loop for one dequeued
event.  The if/elif chain has branches for LISTENING_START, LISTENING_END and
EXIT only; an INTERRUPTED event matches none of them and falls through with
no effect. -/
def handleActivationEvent (st : MicLoopState) (e : ActivationEvent) :
    MicLoopState :=
  if e = ActivationEvent.listeningStart then
    { st with forwarding := true,
              vizState := VisualizerState.listening,
              interrupted := false }
  else if e = ActivationEvent.listeningEnd then
    { st with forwarding := false,
              endTurnsSent := st.endTurnsSent + 1,
              vizState := VisualizerState.thinking }
  else if e = ActivationEvent.exit then
    { st with running := false }
  else st

/-! ## Receive loop (voice_session.py, _receive_loop) -/

/-- The state _receive_loop reads and writes while consuming one receive()
part sequence: the visualizer state, the session `_interrupted` flag, and the
speaker playback queue. -/
structure RecvLoopState where
  vizState : VisualizerState
  interrupted : Bool
  playQueue : List PCMChunk
deriving DecidableEq, Repr

/-- The body of VoiceSession._receive_loop consuming one part sequence from
receive(): returns the final state and the list of audio chunks passed to
`speaker.play`, in order.  `vadMode` is `activation_mode == VAD`.  A final
part moves the visualizer back to Listening (clearing the interrupt flag in
VAD mode) and breaks.  An audio part first moves the visualizer to Speaking;
then, if the interrupt flag is set, the speaker queue is cleared, the flag is
cleared, the visualizer returns to Listening and the loop breaks; otherwise
the chunk is enqueued for playback.  A text part changes no modelled
state. -/
def receiveLoopRun (vadMode : Bool) (st : RecvLoopState) :
    List ResponsePart → RecvLoopState × List PCMChunk
  | [] => (st, [])
  | p :: rest =>
    if p.isFinal then
      ({ st with vizState := VisualizerState.listening,
                 interrupted := if vadMode then false else st.interrupted },
        [])
    else
      match p.audio with
      | some a =>
        if st.interrupted then
          ({ vizState := VisualizerState.listening,
             interrupted := false,
             playQueue := SpeakerPlayback.clear st.playQueue },
            [])
        else
          ((receiveLoopRun vadMode
              { st with vizState := VisualizerState.speaking,
                        playQueue := st.playQueue ++ [a] } rest).1,
            a :: (receiveLoopRun vadMode
              { st with vizState := VisualizerState.speaking,
                        playQueue := st.playQueue ++ [a] } rest).2)
      | none => receiveLoopRun vadMode st rest

/-! ## Helper lemmas -/

/-- The biquad applied to a concatenation equals the first buffer's output
followed by the second buffer's output computed from the carried state. -/
lemma applyHighpass_append (c : HPFCoeffs) (xs ys : List ℚ) (s : HPFState) :
    applyHighpass c (xs ++ ys) s =
      ((applyHighpass c xs s).1 ++
          (applyHighpass c ys (applyHighpass c xs s).2).1,
        (applyHighpass c ys (applyHighpass c xs s).2).2) := by
  induction xs generalizing s with
  | nil => simp [applyHighpass]
  | cons x rest ih => simp [applyHighpass, ih]

/-- Every part produced from one server content part is non-final. -/
lemma yieldServerPart_not_final (fmt : String → String) (q : ServerPart) :
    ∀ p ∈ yieldServerPart fmt q, p.isFinal = false := by
  intro p hp
  rcases q with ⟨d, t⟩
  simp only [yieldServerPart] at hp
  rcases List.mem_append.1 hp with h | h
  · cases d with
    | none => simp at h
    | some dd =>
      by_cases hd : dd = [] <;> simp [hd] at h
      subst h; rfl
  · cases t with
    | none => simp at h
    | some tt =>
      by_cases ht : tt = "" <;> simp [ht] at h
      subst h; rfl

/-- Every part produced from a server message's part list is non-final. -/
lemma flattenParts_not_final (fmt : String → String) (ps : List ServerPart) :
    ∀ p ∈ (ps.map (yieldServerPart fmt)).flatten, p.isFinal = false := by
  intro p hp
  rcases List.mem_flatten.1 hp with ⟨l, hl, hpl⟩
  rcases List.mem_map.1 hl with ⟨q, _, rfl⟩
  exact yieldServerPart_not_final fmt q p hpl

/-- dropLast distributes over an append whose second list is nonempty. -/
lemma dropLast_append_ne_nil {α : Type} (xs : List α) {ys : List α}
    (h : ys ≠ []) : (xs ++ ys).dropLast = xs ++ ys.dropLast := by
  induction xs with
  | nil => rfl
  | cons x rest ih =>
    cases rest with
    | nil => cases ys with
      | nil => exact absurd rfl h
      | cons y yrest => rfl
    | cons z zrest => simpa [List.dropLast] using ih

/-- The AGC step keeps the gain strictly positive and at most the max
gain. -/
lemma agcUpdateGain_bounds {g : ℚ} (hg0 : 0 < g) (hg10 : g ≤ AGC_MAX_GAIN)
    (r : ℚ) : 0 < agcUpdateGain g r ∧ agcUpdateGain g r ≤ AGC_MAX_GAIN := by
  unfold agcUpdateGain
  split_ifs with h
  · have hr : 0 < r := lt_trans (by norm_num [AGC_RMS_FLOOR]) h
    have hd0 : 0 < agcDesiredGain r := by
      unfold agcDesiredGain
      apply lt_min
      · exact div_pos (by norm_num [AGC_TARGET_RMS]) hr
      · norm_num [AGC_MAX_GAIN]
    have hd10 : agcDesiredGain r ≤ AGC_MAX_GAIN := min_le_right _ _
    simp only [AGC_SMOOTHING, AGC_MAX_GAIN] at *
    constructor
    · linarith
    · linarith
  · exact ⟨hg0, hg10⟩

/-- The AGC gain invariant is preserved along any sequence of updates. -/
lemma agc_fold_bounds (seq : List ℚ) {g : ℚ} (hg0 : 0 < g)
    (hg10 : g ≤ AGC_MAX_GAIN) :
    0 < seq.foldl agcUpdateGain g ∧
      seq.foldl agcUpdateGain g ≤ AGC_MAX_GAIN := by
  induction seq generalizing g with
  | nil => exact ⟨hg0, hg10⟩
  | cons r rest ih =>
    have h := agcUpdateGain_bounds hg0 hg10 r
    simpa [List.foldl] using ih h.1 h.2

/-- Scaling every sample scales the sum of squares by the square of the
factor. -/
lemma sum_map_sq_scale (a : ℚ) (xs : List ℚ) :
    ((xs.map (fun x => x * a)).map (fun x => x ^ 2)).sum =
      a ^ 2 * (xs.map (fun x => x ^ 2)).sum := by
  induction xs with
  | nil => simp
  | cons x rest ih =>
    simp only [List.map_cons, List.sum_cons, ih]
    ring

/-- Scaling every sample scales the mean square by the square of the
factor. -/
lemma meanSq_scale (a : ℚ) (xs : List ℚ) :
    meanSq (xs.map (fun x => x * a)) = a ^ 2 * meanSq xs := by
  unfold meanSq
  rw [List.length_map, sum_map_sq_scale, mul_div_assoc]

/-! ## Claim theorems -/

/-- C1: the claim says the orchestrator feeds every captured raw PCM buffer
to the wake-phrase activator.  The code (voice_session.py line 210) instead
calls `activator.push_rms(rms)` — passing only the scalar RMS — and no
attribute `push_rms` exists on WakeWordActivator, so the call raises
AttributeError on the very first mic chunk in WakePhrase mode.  The intended
entry point `push_audio` (raw PCM bytes) does exist but is never called by
the session. -/
theorem wake_feed_attribute_error :
    ∀ rms : ℚ,
      micForwardWakeFeed rms =
        Except.error (PyException.attributeError "push_rms") ∧
      wakeWordActivatorAttrs.contains "push_audio" = true ∧
      wakeWordActivatorAttrs.contains "push_rms" = false := by
  intro rms
  exact ⟨rfl, by decide, by decide⟩

/-- The concrete pre-barge-in state used in the C2 counterexample: the agent
is speaking, no interrupt pending, one unplayed chunk queued. -/
def c2StartState : BargeInState :=
  { vizState := VisualizerState.speaking, bargeInStreak := 0,
    interrupted := false, playQueue := [[1000]] }

/-- The end state after four consecutive frames of raw RMS 0.05 (above the
0.04 barge-in threshold) run through the mic-forward loop's barge-in
block. -/
def c2EndState : BargeInState :=
  (List.replicate BARGE_IN_FRAMES_REQUIRED (5/100 : ℚ)).foldl
    bargeInStep c2StartState

/-- C2 counterexample: after four consecutive loud frames while Speaking, the
mic-forward loop has set the interrupt flag and moved to Listening, but the
playback queue still holds the queued chunk — the barge-in transition itself
does not execute Playback.clear(), so the claim that the queue is cleared in
that transition is false. -/
theorem barge_in_no_immediate_clear_cex :
    c2EndState.interrupted = true ∧
    c2EndState.vizState = VisualizerState.listening ∧
    c2EndState.playQueue = [[1000]] ∧
    c2EndState.playQueue ≠ [] := by
  have h : c2EndState =
      { vizState := VisualizerState.listening, bargeInStreak := 0,
        interrupted := true, playQueue := [[1000]] } := by
    norm_num [c2EndState, c2StartState, BARGE_IN_FRAMES_REQUIRED,
      List.replicate, List.foldl, bargeInStep, BARGE_IN_RMS_THRESHOLD]
  rw [h]
  refine ⟨rfl, rfl, rfl, by simp⟩

/-- C2 (amended): on the fourth consecutive loud frame while Speaking the
orchestrator sets the interrupt flag and returns to Listening immediately,
leaving the playback queue untouched; SpeakerPlayback.clear — executed by the
receive loop at the next audio part that arrives with the flag set — leaves
the queue empty; and while the flag is set the receive loop enqueues no
further audio chunk of the interrupted turn to the speaker, however many
response parts still arrive for that turn. -/
theorem barge_in_interrupt_semantics :
    (∀ (st : BargeInState) (rms : ℚ),
      st.vizState = VisualizerState.speaking →
      rms > BARGE_IN_RMS_THRESHOLD →
      st.bargeInStreak + 1 ≥ BARGE_IN_FRAMES_REQUIRED →
      bargeInStep st rms =
        { st with interrupted := true,
                  vizState := VisualizerState.listening,
                  bargeInStreak := 0 }) ∧
    (∀ q : List PCMChunk, SpeakerPlayback.clear q = []) ∧
    (∀ (vadMode : Bool) (st : RecvLoopState) (parts : List ResponsePart),
      st.interrupted = true →
      (receiveLoopRun vadMode st parts).2 = []) := by
  refine ⟨?_, ?_, ?_⟩
  · intro st rms h1 h2 h3
    simp [bargeInStep, h1, h2, h3]
  · intro q
    induction q with
    | nil => rfl
    | cons a rest ih => simpa [SpeakerPlayback.clear] using ih
  · intro vadMode st parts hint
    induction parts with
    | nil => rfl
    | cons p rest ih =>
      by_cases hf : p.isFinal = true
      · simp [receiveLoopRun, hf]
      · cases ha : p.audio with
        | some a => simp [receiveLoopRun, hf, ha, hint]
        | none => simpa [receiveLoopRun, hf, ha] using ih

/-- Witness for C2: the amended theorem applied at concrete inputs. -/
theorem barge_in_interrupt_semantics_witness :
    bargeInStep { vizState := VisualizerState.speaking, bargeInStreak := 3,
                  interrupted := false, playQueue := [[1000]] } (5/100) =
      { vizState := VisualizerState.listening, bargeInStreak := 0,
        interrupted := true, playQueue := [[1000]] } ∧
    SpeakerPlayback.clear [[1000], [2000]] = [] ∧
    (receiveLoopRun true
      { vizState := VisualizerState.speaking, interrupted := true,
        playQueue := [[1000]] }
      [{ audio := some [2000], text := none, isFinal := false }]).2 = [] :=
  ⟨barge_in_interrupt_semantics.1
      { vizState := VisualizerState.speaking, bargeInStreak := 3,
        interrupted := false, playQueue := [[1000]] } (5/100)
      rfl (by norm_num [BARGE_IN_RMS_THRESHOLD]) (by decide),
    barge_in_interrupt_semantics.2.1 [[1000], [2000]],
    barge_in_interrupt_semantics.2.2 true _ _ rfl⟩

/-- The concrete mic-loop state used in the C3 counterexample: forwarding,
agent speaking, a chunk queued, no interrupt pending. -/
def c3ExampleState : MicLoopState :=
  { forwarding := true, running := true,
    vizState := VisualizerState.speaking, interrupted := false,
    playQueue := [[1000]], endTurnsSent := 0 }

/-- C3 counterexample: delivering an INTERRUPTED activation event to the
mic-forward loop's event dispatch leaves the state exactly as it was — the
interrupt flag stays clear, the visualizer stays in Speaking, and the
playback queue is not cleared — refuting the claim that the orchestrator
performs the barge-in transition on an Interrupted event. -/
theorem interrupted_event_ignored_cex :
    handleActivationEvent c3ExampleState ActivationEvent.interrupted =
      c3ExampleState ∧
    c3ExampleState.interrupted = false ∧
    c3ExampleState.vizState = VisualizerState.speaking ∧
    c3ExampleState.playQueue ≠ [] := by
  refine ⟨?_, ?_, ?_, ?_⟩ <;> decide

/-- C3 (amended): the activation-event dispatch of _mic_forward_loop has
branches only for LISTENING_START, LISTENING_END and EXIT; an INTERRUPTED
event is dequeued and ignored — it changes nothing: no interrupt() call, no
Playback.clear(), no state transition.  (VADActivator can emit the event via
signal_playback_interrupted, but the session never calls that method either;
barge-in is handled solely by the RMS path.) -/
theorem interrupted_event_is_ignored :
    ∀ st : MicLoopState,
      handleActivationEvent st ActivationEvent.interrupted = st := by
  intro st
  rfl

/-- C4: wake-phrase state machine — in any monitor-loop step (with the
WakePhraseState invariant that exactly one of the two states holds),
ListeningStart is emitted iff the machine is WaitingForPhrase and the score
is at or above the threshold; the scorer's memory is reset exactly on that
transition; ListeningEnd is emitted iff the machine is in ActiveTurn, the
buffer is quiet, and the consecutive-silence run reaches
SILENCE_FRAMES_TO_END (= 15); a loud buffer during ActiveTurn resets the run
to 0 and emits nothing; and the state invariant is preserved. -/
theorem wake_state_machine_events (threshold : ℚ) (s : WakeState)
    (inp : WakeInput) (hinv : s.activeTurn = !s.listeningForWake) :
    ((wakeMonitorStep threshold s inp).events =
        [ActivationEvent.listeningStart] ↔
      s.listeningForWake = true ∧ threshold ≤ inp.score) ∧
    ((wakeMonitorStep threshold s inp).scorerReset = true ↔
      (wakeMonitorStep threshold s inp).events =
        [ActivationEvent.listeningStart]) ∧
    ((wakeMonitorStep threshold s inp).events =
        [ActivationEvent.listeningEnd] ↔
      s.activeTurn = true ∧ inp.rms < ENERGY_THRESHOLD ∧
        SILENCE_FRAMES_TO_END ≤ s.silenceStreak + 1) ∧
    (s.activeTurn = true → ENERGY_THRESHOLD ≤ inp.rms →
      (wakeMonitorStep threshold s inp).state.silenceStreak = 0 ∧
      (wakeMonitorStep threshold s inp).events = []) ∧
    ((wakeMonitorStep threshold s inp).state.activeTurn =
      !(wakeMonitorStep threshold s inp).state.listeningForWake) := by
  rcases s with ⟨lw, act, streak⟩
  simp only at hinv
  subst hinv
  unfold wakeMonitorStep
  cases lw <;> simp_all <;> split_ifs <;> simp_all

/-- Witness for C4: from the initial waiting state, a buffer scoring 0.75
against the default threshold 0.5 emits ListeningStart. -/
theorem wake_state_machine_events_witness :
    (wakeMonitorStep DEFAULT_WAKE_THRESHOLD WakeState.init
        { score := 3/4, rms := 0 }).events =
      [ActivationEvent.listeningStart] :=
  ((wake_state_machine_events DEFAULT_WAKE_THRESHOLD WakeState.init
      { score := 3/4, rms := 0 } rfl).1).mpr
    ⟨rfl, by norm_num [DEFAULT_WAKE_THRESHOLD]⟩

/-- C5: filter continuity — running any sample sequence through the
high-pass stage as one call produces exactly the output of splitting it into
any number of sub-buffers and running them sequentially, because the two
delay registers carry the state across calls. -/
theorem highpass_chunk_continuity (c : HPFCoeffs) (bufs : List (List ℚ))
    (s : HPFState) :
    applyHighpass c bufs.flatten s = applyHighpassChunks c bufs s := by
  induction bufs generalizing s with
  | nil => simp [applyHighpass, applyHighpassChunks]
  | cons b bs ih => simp [applyHighpassChunks, applyHighpass_append, ih]

/-- The concrete server stream used in the C6 counterexample: one message
carrying a text part, with neither an interruption signal nor a
turn-completion marker, after which the underlying stream ends. -/
def c6StreamEndsEarly : List ServerMsg :=
  [{ interrupted := false,
     parts := [{ inlineData := none, text := some "hi" }],
     turnComplete := false }]

/-- C6 counterexample: receive() over a stream that ends without a
turn-completion marker terminates without ever yielding a final part — its
whole output is one non-final text part — refuting the claim that the
sequence terminates exactly when a part with is_final=true is yielded. -/
theorem receive_ends_without_final_cex :
    receive fmtId c6StreamEndsEarly =
      [{ audio := none, text := some "hi", isFinal := false }] ∧
    ({ audio := none, text := some "hi", isFinal := false } :
        ResponsePart).isFinal = false := by
  exact ⟨rfl, rfl⟩

/-- C6 (amended): across the yielded sequence, every part but possibly the
last is non-final — so the sequence ends as soon as a final part is yielded,
and receive() can also end, without a final part, when the underlying server
stream is exhausted; and a server-side interruption signal makes receive()
yield exactly one synthetic final part (is_final=true, no audio, no text) and
terminate at once, regardless of what else is in the stream. -/
theorem receive_final_semantics :
    (∀ (fmt : String → String) (msgs : List ServerMsg),
      ∀ p ∈ (receive fmt msgs).dropLast, p.isFinal = false) ∧
    (∀ (fmt : String → String) (m : ServerMsg) (rest : List ServerMsg),
      m.interrupted = true → receive fmt (m :: rest) = [finalPart]) := by
  constructor
  · intro fmt msgs
    induction msgs with
    | nil => simp [receive]
    | cons m rest ih =>
      intro p hp
      by_cases hi : m.interrupted = true
      · simp [receive, hi] at hp
      · by_cases hc : m.turnComplete = true
        · rw [receive, if_neg (by simp [hi]), if_pos hc,
            List.dropLast_concat] at hp
          exact flattenParts_not_final fmt m.parts p hp
        · rw [receive, if_neg (by simp [hi]), if_neg (by simp [hc])] at hp
          cases hr : receive fmt rest with
          | nil =>
            rw [hr, List.append_nil] at hp
            exact flattenParts_not_final fmt m.parts p
              (List.dropLast_subset _ hp)
          | cons q qs =>
            rw [hr, dropLast_append_ne_nil _ (by simp)] at hp
            rcases List.mem_append.1 hp with h | h
            · exact flattenParts_not_final fmt m.parts p h
            · rw [← hr] at h
              exact ih p h
  · intro fmt m rest hm
    simp [receive, hm]

/-- Witness for C6: a stream whose first message signals a server
interruption yields exactly the synthetic final part. -/
theorem receive_final_semantics_witness :
    receive fmtId
      [{ interrupted := true, parts := [], turnComplete := false }] =
      [finalPart] :=
  receive_final_semantics.2 fmtId
    { interrupted := true, parts := [], turnComplete := false } [] rfl

/-- C7: send_audio transmits the buffer as one realtime input frame when the
interruption flag is clear, and transmits nothing — returning normally, with
no error — on every call made while the flag is set. -/
theorem send_audio_interrupt_noop :
    ∀ pcm : PCMChunk,
      sendAudio true pcm = [] ∧
      sendAudio false pcm = [ClientInput.realtimeAudio pcm] := by
  intro pcm
  exact ⟨rfl, rfl⟩

/-- C8: for every activation mode, when the mode's required resource (key
listener for PushToTalk, scorer model for WakePhrase) is unavailable,
start() returns an error — it neither hangs nor succeeds silently — and that
error (an ImportError naming the missing dependency) is a ResourceUnavailable
error in the spec's taxonomy.  For ContinuousDetection the hypothesis is
never satisfiable, as that mode requires no resource. -/
theorem activator_start_resource_unavailable :
    ∀ (mode : VoiceActivation) (deps : ActivationDeps),
      requiredResourceAvailable mode deps = false →
      ∃ msg : String,
        activatorStart mode deps =
          Except.error (PyException.importError msg) ∧
        specErrorCategory (PyException.importError msg) =
          some ErrorCategory.resourceUnavailable := by
  intro mode deps h
  cases mode with
  | vad => simp [requiredResourceAvailable] at h
  | ptt =>
    refine ⟨"pynput is required for Push-to-Talk mode", ?_, rfl⟩
    simp only [requiredResourceAvailable] at h
    simp [activatorStart, h]
  | wakeWord =>
    refine ⟨"openwakeword is required for Wake-Word mode", ?_, rfl⟩
    simp only [requiredResourceAvailable] at h
    simp [activatorStart, h]

/-- Witness for C8: starting Push-to-Talk with pynput unavailable fails with
an ImportError classified as ResourceUnavailable. -/
theorem activator_start_resource_unavailable_witness :
    ∃ msg : String,
      activatorStart VoiceActivation.ptt
        { pynputAvailable := false, openwakewordAvailable := true } =
        Except.error (PyException.importError msg) ∧
      specErrorCategory (PyException.importError msg) =
        some ErrorCategory.resourceUnavailable :=
  activator_start_resource_unavailable VoiceActivation.ptt
    { pynputAvailable := false, openwakewordAvailable := true } rfl

/-- C9: gate monotonicity — a buffer whose mean square is below the squared
gate threshold (i.e. whose RMS is below the threshold) is multiplied
throughout by the attenuation factor, never hard-zeroed; its mean square
scales by the square of the factor, so its output RMS equals (hence is at
most) the input RMS times the attenuation factor; and a buffer at or above
the threshold passes through unchanged. -/
theorem noise_gate_monotonicity (audio : List ℚ) :
    (meanSq audio < NOISE_GATE_THRESHOLD ^ 2 →
      applyNoiseGate audio =
        audio.map (fun x => x * NOISE_GATE_ATTENUATION) ∧
      meanSq (applyNoiseGate audio) =
        NOISE_GATE_ATTENUATION ^ 2 * meanSq audio ∧
      Real.sqrt ((meanSq (applyNoiseGate audio) : ℚ) : ℝ) ≤
        ((NOISE_GATE_ATTENUATION : ℚ) : ℝ) *
          Real.sqrt ((meanSq audio : ℚ) : ℝ)) ∧
    (NOISE_GATE_THRESHOLD ^ 2 ≤ meanSq audio →
      applyNoiseGate audio = audio) := by
  constructor
  · intro h
    have hg : applyNoiseGate audio =
        audio.map (fun x => x * NOISE_GATE_ATTENUATION) := by
      rw [applyNoiseGate, if_pos h]
    have hm : meanSq (applyNoiseGate audio) =
        NOISE_GATE_ATTENUATION ^ 2 * meanSq audio := by
      rw [hg, meanSq_scale]
    refine ⟨hg, hm, ?_⟩
    rw [hm]
    push_cast
    rw [Real.sqrt_mul (by positivity) ((meanSq audio : ℚ) : ℝ),
      Real.sqrt_sq (by norm_num [NOISE_GATE_ATTENUATION])]
  · intro h
    rw [applyNoiseGate, if_neg (not_lt.mpr h)]

/-- Witness for C9: a quiet one-sample buffer is attenuated; a loud
one-sample buffer passes through unchanged. -/
theorem noise_gate_monotonicity_witness :
    applyNoiseGate [(1 : ℚ)/1000] =
      [(1 : ℚ)/1000].map (fun x => x * NOISE_GATE_ATTENUATION) ∧
    applyNoiseGate [(1 : ℚ)] = [(1 : ℚ)] :=
  ⟨((noise_gate_monotonicity [(1 : ℚ)/1000]).1
      (by norm_num [meanSq, NOISE_GATE_THRESHOLD])).1,
    (noise_gate_monotonicity [(1 : ℚ)]).2
      (by norm_num [meanSq, NOISE_GATE_THRESHOLD])⟩

/-- C10: AGC gain invariant — starting from the initial gain 1.0, after any
sequence of _apply_agc updates the gain is strictly positive and at most
AGC_MAX_GAIN (= 10); an update at RMS at or below the 1e-6 floor leaves the
gain unchanged; and above the floor the update is exactly the EMA of the
previous gain with a desired gain that is itself strictly positive and capped
at AGC_MAX_GAIN. -/
theorem agc_gain_invariant :
    (∀ rmsSeq : List ℚ,
      0 < rmsSeq.foldl agcUpdateGain AGC_INITIAL_GAIN ∧
      rmsSeq.foldl agcUpdateGain AGC_INITIAL_GAIN ≤ AGC_MAX_GAIN) ∧
    (∀ g r : ℚ, r ≤ AGC_RMS_FLOOR → agcUpdateGain g r = g) ∧
    (∀ g r : ℚ, AGC_RMS_FLOOR < r →
      agcUpdateGain g r =
        AGC_SMOOTHING * g + (1 - AGC_SMOOTHING) * agcDesiredGain r ∧
      0 < agcDesiredGain r ∧ agcDesiredGain r ≤ AGC_MAX_GAIN) := by
  refine ⟨?_, ?_, ?_⟩
  · intro seq
    exact agc_fold_bounds seq (by norm_num [AGC_INITIAL_GAIN])
      (by norm_num [AGC_INITIAL_GAIN, AGC_MAX_GAIN])
  · intro g r h
    rw [agcUpdateGain, if_neg (not_lt.mpr h)]
  · intro g r h
    refine ⟨by rw [agcUpdateGain, if_pos h], ?_, min_le_right _ _⟩
    apply lt_min
    · exact div_pos (by norm_num [AGC_TARGET_RMS])
        (lt_trans (by norm_num [AGC_RMS_FLOOR]) h)
    · norm_num [AGC_MAX_GAIN]

/-- Witness for C10: a silent buffer (RMS 0) leaves a gain of 2 unchanged,
and after one update at RMS 0.1 from the initial gain the gain is still
positive. -/
theorem agc_gain_invariant_witness :
    agcUpdateGain 2 0 = 2 ∧
    0 < [(1 : ℚ)/10].foldl agcUpdateGain AGC_INITIAL_GAIN :=
  ⟨agc_gain_invariant.2.1 2 0 (by norm_num [AGC_RMS_FLOOR]),
    (agc_gain_invariant.1 [(1 : ℚ)/10]).1⟩

end Archon
